import Mathlib

/-!
Verification of the Actife LORAN/e-LORAN simulation engine
(src/components/Eloran.jsx, src/components/Loranc.jsx,
src/workers/gridWorker.js, src/workers/asfWorker.js).

The JavaScript numerics are embedded over the exact rationals.
Transcendental primitives that the engine calls (haversine distance,
Math.sqrt / Math.hypot, Math.cos, Math.PI) are passed to the embedded
functions as explicit parameters, so every definition stays computable
and the arithmetic structure of each source function is preserved
verbatim.  JavaScript field-default idioms (station.clock || default,
x || 0) are modelled with Option and getD.
-/

namespace Actife

/-- Propagation speed constant C = 299 792 458 m/s (Eloran.jsx line 17,
gridWorker.js line 27). -/
def Cc : ℚ := 299792458

/-- Clock model: bias (s) + drift (s/s) (Eloran.jsx line 54). -/
structure Clock where
  biasSec : ℚ
  driftPerSec : ℚ
  deriving DecidableEq

/-- Differential-correction record carried by a station. -/
structure DiffCorr where
  enabled : Bool
  avgMeters : ℚ
  deriving DecidableEq

/-- Station as used by Eloran.jsx: geodetic position, optional clock,
fixed offset, optional ASF callback, optional differential correction.
The asfMap callback is modelled as a total rational function; the
try/catch fallback to zero is modelled by the none case. -/
structure Station where
  label : String
  lat : ℚ
  lng : ℚ
  clock : Option Clock
  offsetSec : ℚ
  asfMap : Option (ℚ → ℚ → ℚ)
  diffCorrections : Option DiffCorr

/-- Worker-side station record (gridWorker.js payload): ASF is only a
constant number there, never a callback (gridWorker.js line 42). -/
structure WStation where
  lat : ℚ
  lng : ℚ
  clock : Option Clock
  offsetSec : ℚ
  asfMeters : Option ℚ
  diffCorrections : Option DiffCorr

/-- Type of the abstracted distance primitive: station lat, station lng,
target lat, target lng ↦ meters (haversine in the source). -/
abbrev Dist := ℚ → ℚ → ℚ → ℚ → ℚ

/-- simulateClockTick (Eloran.jsx line 55, gridWorker.js line 23):
effective clock offset biasSec + driftPerSec * t. -/
def simulateClockTick (clock : Clock) (tSec : ℚ) : ℚ :=
  clock.biasSec + clock.driftPerSec * tSec

/-- Default used by the idiom station.clock || \x7bbiasSec:0, driftPerSec:0\x7d. -/
def effClock (c : Option Clock) : Clock :=
  c.getD ⟨0, 0⟩

/-- ASF sample of a station at a point: asfMap(lat,lng) when the station
has a callback, 0 otherwise (Eloran.jsx lines 68-71). -/
def asfSample (st : Station) (lat lng : ℚ) : ℚ :=
  match st.asfMap with
  | some f => f lat lng
  | none => 0

/-- Differential correction in meters: avgMeters when enabled, else 0
(Eloran.jsx lines 72-73). -/
def diffCorrMeters (d : Option DiffCorr) : ℚ :=
  match d with
  | some dc => if dc.enabled then dc.avgMeters else 0
  | none => 0

/-- computeArrivalSec (Eloran.jsx lines 62-75): per-path arrival time of
a station signal at (lat,lng) at simulated time t. -/
def computeArrivalSec (distFn : Dist) (st : Station) (lat lng simTimeSec : ℚ) : ℚ :=
  let dist := distFn st.lat st.lng lat lng
  let geoDelay := dist / Cc
  let clockOffset := simulateClockTick (effClock st.clock) simTimeSec
  let offsetSec := st.offsetSec
  let asfMeters := asfSample st lat lng
  let diffCorr := diffCorrMeters st.diffCorrections
  geoDelay + offsetSec + clockOffset + (asfMeters - diffCorr) / Cc

/-- computeArrivalSecNoDiff (Eloran.jsx lines 78-88): same as
computeArrivalSec but with the differential correction forced to zero. -/
def computeArrivalSecNoDiff (distFn : Dist) (st : Station) (lat lng simTimeSec : ℚ) : ℚ :=
  let dist := distFn st.lat st.lng lat lng
  let geoDelay := dist / Cc
  let clockOffset := simulateClockTick (effClock st.clock) simTimeSec
  let offsetSec := st.offsetSec
  let asfMeters := asfSample st lat lng
  geoDelay + offsetSec + clockOffset + asfMeters / Cc

/-- computeArrivalSecLocal (gridWorker.js lines 29-47) for a station
record that carries lat/lng (the shape the Eloran caller always sends):
ASF is the constant station.asfMeters or 0. -/
def computeArrivalSecLocal (distFn : Dist) (st : WStation) (lat lng simTimeSec : ℚ) : ℚ :=
  let dist := distFn st.lat st.lng lat lng
  let geoDelay := dist / Cc
  let clockOffset := simulateClockTick (effClock st.clock) simTimeSec
  let offsetSec := st.offsetSec
  let asfMeters := st.asfMeters.getD 0
  let diffCorrMeters := diffCorrMeters st.diffCorrections
  geoDelay + offsetSec + clockOffset + (asfMeters - diffCorrMeters) / Cc

/-- Formula of the specification, §4.1: arrival(t) = d/C + stationOffset
+ (clockBias + clockDrift·t) + (asfMeters − diffCorrectionMeters)/C. -/
def arrivalSpec (distMeters stationOffset clockBias clockDrift t asfMeters diffMeters : ℚ) : ℚ :=
  distMeters / Cc + stationOffset + (clockBias + clockDrift * t) + (asfMeters - diffMeters) / Cc

/-! ### Grid worker pair loop (gridWorker.js lines 103-135) and the
Eloran synchronous fallback (Eloran.jsx lines 533-557). -/

/-- Pair constant removed from each cell: (slave clock offset + slave
offset) − (master clock offset + master offset) (gridWorker.js lines
107-113). -/
def pairConstSec (m s : WStation) (simTimeSec : ℚ) : ℚ :=
  let masterClockOffset := simulateClockTick (effClock m.clock) simTimeSec
  let slaveClockOffset := simulateClockTick (effClock s.clock) simTimeSec
  (slaveClockOffset + s.offsetSec) - (masterClockOffset + m.offsetSec)

/-- Per-station arrival used inside the worker pair loop (gridWorker.js
lines 130-131); the ASF meters value (raster cell or constant) is passed
in as asfM. -/
def wArrival (distFn : Dist) (st : WStation) (asfM x y simTimeSec : ℚ) : ℚ :=
  distFn st.lat st.lng x y / Cc + st.offsetSec
    + simulateClockTick (effClock st.clock) simTimeSec
    + (asfM - diffCorrMeters st.diffCorrections) / Cc

/-- TDOA raster cell value of the worker for pair (master m, slave s)
with ASF samples asfM/asfS at the cell: (arrivalS − arrivalM) −
pairConstSec (gridWorker.js line 133). -/
def gridCellValue (distFn : Dist) (m s : WStation) (asfM asfS x y simTimeSec : ℚ) : ℚ :=
  (wArrival distFn s asfS x y simTimeSec - wArrival distFn m asfM x y simTimeSec)
    - pairConstSec m s simTimeSec

/-- Pair constant of the Eloran synchronous fallback (Eloran.jsx lines
536-543), same formula over full Station records. -/
def ePairConstSec (m s : Station) (simTimeSec : ℚ) : ℚ :=
  let mClockOffset := simulateClockTick (effClock m.clock) simTimeSec
  let sClockOffset := simulateClockTick (effClock s.clock) simTimeSec
  (sClockOffset + s.offsetSec) - (mClockOffset + m.offsetSec)

/-- TDOA raster cell value of the Eloran synchronous fallback
(Eloran.jsx lines 550-554). -/
def eCellValue (distFn : Dist) (m s : Station) (latc lngc simTimeSec : ℚ) : ℚ :=
  (computeArrivalSec distFn s latc lngc simTimeSec
      - computeArrivalSec distFn m latc lngc simTimeSec)
    - ePairConstSec m s simTimeSec

/-! ### Claim theorems C1 and C4 -/

/-- C1: for every station (clock bias/drift, fixed offset, ASF meters,
differential correction), every target point and every simulated time t,
the computed arrival time equals
dist/C + stationOffset + (clockBias + clockDrift·t) + (asf − diff)/C,
with diff = avgMeters when differential correction is enabled and 0
otherwise — for both the Eloran computeArrivalSec and the worker
computeArrivalSecLocal. -/
theorem c1_arrival_time_formula (distFn : Dist) (st : Station) (wst : WStation)
    (lat lng t : ℚ) :
    computeArrivalSec distFn st lat lng t
      = arrivalSpec (distFn st.lat st.lng lat lng) st.offsetSec
          (effClock st.clock).biasSec (effClock st.clock).driftPerSec t
          (asfSample st lat lng)
          (match st.diffCorrections with
           | some dc => if dc.enabled then dc.avgMeters else 0
           | none => 0)
    ∧ computeArrivalSecLocal distFn wst lat lng t
      = arrivalSpec (distFn wst.lat wst.lng lat lng) wst.offsetSec
          (effClock wst.clock).biasSec (effClock wst.clock).driftPerSec t
          (wst.asfMeters.getD 0)
          (match wst.diffCorrections with
           | some dc => if dc.enabled then dc.avgMeters else 0
           | none => 0) := by
  constructor
  · simp only [computeArrivalSec, arrivalSpec, simulateClockTick, diffCorrMeters]
  · simp only [computeArrivalSecLocal, arrivalSpec, simulateClockTick, diffCorrMeters]

/-- C4: the TDOA raster value produced for pair (master = A, slave = B)
is the negation of the value produced at the same cell for the swapped
pair (master = B, slave = A), when each station carries the same fields
(including its ASF sample) in both roles — for the worker pair loop and
for the Eloran synchronous fallback. -/
theorem c4_tdoa_raster_antisymmetry (distFn : Dist) (A B : WStation) (eA eB : Station)
    (asfA asfB x y latc lngc t : ℚ) :
    gridCellValue distFn A B asfA asfB x y t
      = - gridCellValue distFn B A asfB asfA x y t
    ∧ eCellValue distFn eA eB latc lngc t
      = - eCellValue distFn eB eA latc lngc t := by
  constructor
  · simp only [gridCellValue, wArrival, pairConstSec, simulateClockTick]
    ring
  · simp only [eCellValue, computeArrivalSec, ePairConstSec, simulateClockTick]
    ring

/-! ### Auto-calibration (Eloran.jsx lines 980-1014) -/

/-- Receiver record as used by autoCalibrate (label + true position). -/
structure Receiver where
  label : String
  lat : ℚ
  lng : ℚ

/-- One simulated arrival: source station label, arrival type string
(master / master-sky / slave), observed arrival time. -/
structure Arrival where
  station : String
  type : String
  arrivalSec : ℚ

/-- Per-receiver simulation result consumed by autoCalibrate. -/
structure SimResult where
  receiver : String
  arrivals : List Arrival

/-- Boolean prefix test on character lists. -/
def isPrefixB : List Char → List Char → Bool
  | [], _ => true
  | _ :: _, [] => false
  | a :: as, b :: bs => a == b && isPrefixB as bs

/-- Boolean substring test on character lists (models
String.prototype.includes). -/
def hasInfixB (needle : List Char) : List Char → Bool
  | [] => needle.isEmpty
  | c :: cs => isPrefixB needle (c :: cs) || hasInfixB needle cs

/-- Body of the arrivals loop of autoCalibrate (Eloran.jsx lines
991-1003): look the arrival's station up among the masters, skip skywave
arrivals, and push −(observed − predicted)·C for its label. -/
def calibStep (distFn : Dist) (masters : List Station) (t : ℚ) (rx : Receiver)
    (acc : List (String × ℚ)) (arr : Arrival) : List (String × ℚ) :=
  match masters.find? (fun mm => mm.label == arr.station) with
  | none => acc
  | some m =>
    if hasInfixB "sky".toList arr.type.toList then acc
    else acc ++ [(m.label,
      -((arr.arrivalSec - computeArrivalSecNoDiff distFn m rx.lat rx.lng t) * Cc))]

/-- Body of the receivers loop of autoCalibrate (Eloran.jsx lines
986-1004): resolve the receiver of the result, then fold its arrivals. -/
def resStep (distFn : Dist) (masters : List Station) (receivers : List Receiver)
    (t : ℚ) (acc : List (String × ℚ)) (res : SimResult) : List (String × ℚ) :=
  match receivers.find? (fun r => r.label == res.receiver) with
  | none => acc
  | some rx => res.arrivals.foldl (calibStep distFn masters t rx) acc

/-- The masterCorrections accumulator of autoCalibrate, flattened to a
label-keyed association list in push order. -/
def autoCalibContribs (distFn : Dist) (masters : List Station) (receivers : List Receiver)
    (results : List SimResult) (t : ℚ) : List (String × ℚ) :=
  results.foldl (resStep distFn masters receivers t) []

/-- Entries pushed for one label (the dictionary lookup
masterCorrections[label]). -/
def labelFilter (label : String) (l : List (String × ℚ)) : List ℚ :=
  l.filterMap (fun p => if p.1 == label then some p.2 else none)

/-- autoCalibrate (Eloran.jsx lines 1005-1011): map each master to
itself when it collected no corrections, and otherwise to a copy whose
diffCorrections is \x7benabled: true, avgMeters: average\x7d. -/
def autoCalibrate (distFn : Dist) (masters : List Station) (receivers : List Receiver)
    (results : List SimResult) (t : ℚ) : List Station :=
  let contribs := autoCalibContribs distFn masters receivers results t
  masters.map (fun m =>
    let arr := labelFilter m.label contribs
    if arr.length = 0 then m
    else { m with
           diffCorrections := some (DiffCorr.mk true
             (arr.foldl (fun a b => a + b) 0 / (arr.length : ℚ))) })

/-- Contribution of one arrival to one master label, written after the
specification §4.5: for a master-attributed non-skywave arrival the
contribution is −(observed − predicted)·C with
predicted = computeArrivalNoDiff(station, receiverPos, t). -/
def arrivalContrib (distFn : Dist) (masters : List Station) (t : ℚ) (rx : Receiver)
    (label : String) (arr : Arrival) : Option ℚ :=
  match masters.find? (fun mm => mm.label == arr.station) with
  | none => none
  | some m =>
    if hasInfixB "sky".toList arr.type.toList then none
    else if m.label == label then
      some (-((arr.arrivalSec - computeArrivalSecNoDiff distFn m rx.lat rx.lng t) * Cc))
    else none

/-- Attributed contributions of one simulation result to one label. -/
def specResContribs (distFn : Dist) (masters : List Station) (receivers : List Receiver)
    (t : ℚ) (label : String) (res : SimResult) : List ℚ :=
  match receivers.find? (fun r => r.label == res.receiver) with
  | none => []
  | some rx => res.arrivals.filterMap (arrivalContrib distFn masters t rx label)

/-- All attributed contributions of a calibration batch to one label, in
batch order. -/
def specAttributedContribs (distFn : Dist) (masters : List Station)
    (receivers : List Receiver) (results : List SimResult) (t : ℚ)
    (label : String) : List ℚ :=
  (results.map (specResContribs distFn masters receivers t label)).flatten

theorem labelFilter_append (label : String) (l1 l2 : List (String × ℚ)) :
    labelFilter label (l1 ++ l2) = labelFilter label l1 ++ labelFilter label l2 := by
  simp [labelFilter, List.filterMap_append]

theorem labelFilter_calibStep (distFn : Dist) (masters : List Station) (t : ℚ)
    (rx : Receiver) (label : String) (acc : List (String × ℚ)) (arr : Arrival) :
    labelFilter label (calibStep distFn masters t rx acc arr)
      = labelFilter label acc ++ (arrivalContrib distFn masters t rx label arr).toList := by
  unfold calibStep arrivalContrib
  cases hf : masters.find? (fun mm => mm.label == arr.station) with
  | none => simp
  | some m =>
    split_ifs with hsky
    · simp [Option.toList]
    · by_cases hl : m.label = label
      · simp [labelFilter_append, labelFilter, hl, Option.toList]
      · simp [labelFilter_append, labelFilter, hl, Option.toList]

theorem labelFilter_foldl_arrivals (distFn : Dist) (masters : List Station) (t : ℚ)
    (rx : Receiver) (label : String) :
    ∀ (arrivals : List Arrival) (acc : List (String × ℚ)),
      labelFilter label (arrivals.foldl (calibStep distFn masters t rx) acc)
        = labelFilter label acc
            ++ arrivals.filterMap (arrivalContrib distFn masters t rx label) := by
  intro arrivals
  induction arrivals with
  | nil => intro acc; simp
  | cons a as ih =>
    intro acc
    rw [List.foldl_cons, ih, labelFilter_calibStep]
    cases h : arrivalContrib distFn masters t rx label a <;>
      simp [h, List.filterMap_cons]

theorem labelFilter_foldl_results (distFn : Dist) (masters : List Station)
    (receivers : List Receiver) (t : ℚ) (label : String) :
    ∀ (results : List SimResult) (acc : List (String × ℚ)),
      labelFilter label (results.foldl (resStep distFn masters receivers t) acc)
        = labelFilter label acc
            ++ (results.map (specResContribs distFn masters receivers t label)).flatten := by
  intro results
  induction results with
  | nil => intro acc; simp
  | cons r rs ih =>
    intro acc
    rw [List.foldl_cons, ih]
    unfold resStep specResContribs
    cases hf : receivers.find? (fun rr => rr.label == r.receiver) with
    | none => simp [hf]
    | some rx => simp [hf, labelFilter_foldl_arrivals]

theorem foldl_add_eq_sum : ∀ (l : List ℚ) (a : ℚ), l.foldl (fun x y => x + y) a = a + l.sum := by
  intro l
  induction l with
  | nil => intro a; simp
  | cons x xs ih => intro a; simp [ih]; ring

/-- C2: an auto-calibration run maps every master to itself when it has
zero attributed (master-labelled, non-skywave) observations, and
otherwise replaces its differential correction with
\x7benabled: true, avgMeters: average of −(observed − predicted)·C\x7d,
where predicted = computeArrivalSecNoDiff(station, receiverPos, t). -/
theorem c2_autocalibrate_differential_corrections (distFn : Dist)
    (masters : List Station) (receivers : List Receiver)
    (results : List SimResult) (t : ℚ) :
    autoCalibrate distFn masters receivers results t
      = masters.map (fun m =>
          let l := specAttributedContribs distFn masters receivers results t m.label
          if l = [] then m
          else { m with diffCorrections := some ⟨true, l.sum / (l.length : ℚ)⟩ }) := by
  unfold autoCalibrate autoCalibContribs
  apply List.map_congr_left
  intro m _
  have hkey : labelFilter m.label
      (results.foldl (resStep distFn masters receivers t) [])
      = specAttributedContribs distFn masters receivers results t m.label := by
    rw [labelFilter_foldl_results]
    simp [labelFilter, specAttributedContribs]
  simp only [hkey]
  by_cases h : specAttributedContribs distFn masters receivers results t m.label = []
  · simp [h]
  · have hlen : (specAttributedContribs distFn masters receivers results t m.label).length ≠ 0 := by
      simpa [List.length_eq_zero] using h
    simp only [hlen, if_neg h, if_neg hlen]
    rw [foldl_add_eq_sum]
    simp

/-! ### Integrity monitor (Eloran.jsx lines 776-783) -/

/-- Integrity alarm log event (Eloran.jsx line 780). -/
structure LogEvent where
  station : String
  receiver : String
  errorMeters : ℚ
  hpl : Option ℚ
  deriving DecidableEq

/-- Resolved check value (Eloran.jsx line 778): the solver HPL when one
is available, otherwise the raw position error against ground truth. -/
def resolveHplCheck (estHpl : Option ℚ) (errorMeters : ℚ) : ℚ :=
  estHpl.getD errorMeters

/-- Alarm decision of estimateReceiver (Eloran.jsx line 779). -/
def integrityAlarm (enableIntegrityChecks : Bool) (estHpl : Option ℚ)
    (errorMeters integrityThresholdMeters : ℚ) : Bool :=
  enableIntegrityChecks
    && decide (integrityThresholdMeters < resolveHplCheck estHpl errorMeters)

/-- Log update of estimateReceiver (Eloran.jsx line 781): when the alarm
fires, keep the last 400 events and append the new one; otherwise the
log is unchanged.  The update always returns normally. -/
def logStep (events : List LogEvent) (alarm : Bool) (e : LogEvent) : List LogEvent :=
  if alarm then (events.drop (events.length - 400)) ++ [e] else events

/-- C8: with integrity checks enabled, the alarm fires exactly when the
check value exceeds the threshold, the check value being the resolved
HPL when available and the raw error otherwise; the alarm only appends
an informational event to the log (and the log is untouched when the
alarm does not fire). -/
theorem c8_integrity_alarm_iff (estHpl : Option ℚ) (errorMeters threshold : ℚ)
    (events : List LogEvent) (e : LogEvent) :
    (integrityAlarm true estHpl errorMeters threshold = true
      ↔ threshold < (match estHpl with
                     | some h => h
                     | none => errorMeters))
    ∧ logStep events (integrityAlarm true estHpl errorMeters threshold) e
        = (if threshold < resolveHplCheck estHpl errorMeters
           then (events.drop (events.length - 400)) ++ [e]
           else events) := by
  constructor
  · cases estHpl <;> simp [integrityAlarm, resolveHplCheck]
  · by_cases h : threshold < resolveHplCheck estHpl errorMeters
    · simp [integrityAlarm, logStep, h]
    · simp [integrityAlarm, logStep, h]

/-! ### Grid bounds padding (Eloran.jsx lines 364-381, Loranc.jsx lines
541-550) -/

/-- Geographic point (lat, lng in degrees). -/
structure GeoPt where
  lat : ℚ
  lng : ℚ
  deriving DecidableEq

/-- Axis-aligned geographic bounding box in the source's array order
[minLng, minLat, maxLng, maxLat]. -/
structure Bbox where
  minLng : ℚ
  minLat : ℚ
  maxLng : ℚ
  maxLat : ℚ
  deriving DecidableEq

/-- Bounding box of a nonempty station list (Eloran.jsx lines 367-369,
Loranc.jsx lines 543-545). -/
def bboxOf (first : GeoPt) (rest : List GeoPt) : Bbox :=
  ⟨rest.foldl (fun a p => min a p.lng) first.lng,
   rest.foldl (fun a p => min a p.lat) first.lat,
   rest.foldl (fun a p => max a p.lng) first.lng,
   rest.foldl (fun a p => max a p.lat) first.lat⟩

/-- Eloran.jsx computeGrid padding (lines 370-378): widen a span below
1e-6 by 0.01 on each side, then pad by max(span·0.35, 0.01). -/
def padBboxEloran (b : Bbox) : Bbox :=
  let e0 := if |b.maxLng - b.minLng| < 1/1000000 then b.minLng - 1/100 else b.minLng
  let e2 := if |b.maxLng - b.minLng| < 1/1000000 then b.maxLng + 1/100 else b.maxLng
  let e1 := if |b.maxLat - b.minLat| < 1/1000000 then b.minLat - 1/100 else b.minLat
  let e3 := if |b.maxLat - b.minLat| < 1/1000000 then b.maxLat + 1/100 else b.maxLat
  let padX := max ((e2 - e0) * (35/100)) (1/100)
  let padY := max ((e3 - e1) * (35/100)) (1/100)
  ⟨e0 - padX, e1 - padY, e2 + padX, e3 + padY⟩

/-- Loranc.jsx computeGrid padding (lines 546-547): proportional padding
only, 30 percent of the span on each side, with no minimum extent. -/
def padBboxLoranc (b : Bbox) : Bbox :=
  let padX := (b.maxLng - b.minLng) * (3/10)
  let padY := (b.maxLat - b.minLat) * (3/10)
  ⟨b.minLng - padX, b.minLat - padY, b.maxLng + padX, b.maxLat + padY⟩

/-- Grid spacing along one axis (gridWorker.js line 94 and Loranc worker
line 58): projected extent divided by nx − 1.  projX stands for the
EPSG:4326 → EPSG:3857 projection of that axis. -/
def gridDx (projX : ℚ → ℚ) (lo hi : ℚ) (nx : ℕ) : ℚ :=
  (projX hi - projX lo) / ((nx : ℚ) - 1)

/-- C6 counterexample: the claim fails on the Loranc computeGrid entry
point.  With every station at (0°, 0°) the bounding box is fully
degenerate, Loranc's proportional padding leaves it degenerate (extent
0, not a strictly positive minimum extent), and the grid spacing
computed from it is 0, not strictly positive. -/
theorem c6_counterexample_loranc_no_padding :
    bboxOf ⟨0, 0⟩ [⟨0, 0⟩] = ⟨0, 0, 0, 0⟩
    ∧ padBboxLoranc ⟨0, 0, 0, 0⟩ = ⟨0, 0, 0, 0⟩
    ∧ ¬ (0 < (padBboxLoranc (bboxOf ⟨0, 0⟩ [⟨0, 0⟩])).maxLng
            - (padBboxLoranc (bboxOf ⟨0, 0⟩ [⟨0, 0⟩])).minLng)
    ∧ gridDx id (padBboxLoranc (bboxOf ⟨0, 0⟩ [⟨0, 0⟩])).minLng
        (padBboxLoranc (bboxOf ⟨0, 0⟩ [⟨0, 0⟩])).maxLng 300 = 0 := by
  refine ⟨?_, ?_, ?_, ?_⟩ <;> norm_num [bboxOf, padBboxLoranc, gridDx]

/-- C6 amended: the Eloran computeGrid entry point does pad every
bounding box (degenerate ones included) to an extent of at least 0.02
degrees on both axes, so under any strictly monotone per-axis projection
and a resolution of at least 2 the grid spacing is strictly positive;
the Loranc entry point lacks this guard (see the counterexample). -/
theorem c6_amended_eloran_padding_positive (b : Bbox) (projX projY : ℚ → ℚ)
    (nx ny : ℕ) (hlng : b.minLng ≤ b.maxLng) (hlat : b.minLat ≤ b.maxLat)
    (hmx : StrictMono projX) (hmy : StrictMono projY)
    (hnx : 2 ≤ nx) (hny : 2 ≤ ny) :
    (1/50 : ℚ) ≤ (padBboxEloran b).maxLng - (padBboxEloran b).minLng
    ∧ (1/50 : ℚ) ≤ (padBboxEloran b).maxLat - (padBboxEloran b).minLat
    ∧ 0 < gridDx projX (padBboxEloran b).minLng (padBboxEloran b).maxLng nx
    ∧ 0 < gridDx projY (padBboxEloran b).minLat (padBboxEloran b).maxLat ny := by
  have hex : ∀ (e0 e2 : ℚ), e0 ≤ e2 →
      (1/50 : ℚ) ≤ (e2 + max ((e2 - e0) * (35/100)) (1/100))
        - (e0 - max ((e2 - e0) * (35/100)) (1/100)) := by
    intro e0 e2 h
    have hp : (1/100 : ℚ) ≤ max ((e2 - e0) * (35/100)) (1/100) := le_max_right _ _
    nlinarith
  have he : (if |b.maxLng - b.minLng| < 1/1000000 then b.minLng - 1/100 else b.minLng)
      ≤ (if |b.maxLng - b.minLng| < 1/1000000 then b.maxLng + 1/100 else b.maxLng) := by
    split_ifs <;> linarith
  have he2 : (if |b.maxLat - b.minLat| < 1/1000000 then b.minLat - 1/100 else b.minLat)
      ≤ (if |b.maxLat - b.minLat| < 1/1000000 then b.maxLat + 1/100 else b.maxLat) := by
    split_ifs <;> linarith
  have hx : (1/50 : ℚ) ≤ (padBboxEloran b).maxLng - (padBboxEloran b).minLng := by
    simp only [padBboxEloran]
    exact hex _ _ he
  have hy : (1/50 : ℚ) ≤ (padBboxEloran b).maxLat - (padBboxEloran b).minLat := by
    simp only [padBboxEloran]
    exact hex _ _ he2
  have hdenx : 0 < (nx : ℚ) - 1 := by
    have h2 : (2 : ℚ) ≤ (nx : ℚ) := by exact_mod_cast hnx
    linarith
  have hdeny : 0 < (ny : ℚ) - 1 := by
    have h2 : (2 : ℚ) ≤ (ny : ℚ) := by exact_mod_cast hny
    linarith
  have hdx : 0 < gridDx projX (padBboxEloran b).minLng (padBboxEloran b).maxLng nx := by
    have hlt : (padBboxEloran b).minLng < (padBboxEloran b).maxLng := by linarith
    exact div_pos (sub_pos.mpr (hmx hlt)) hdenx
  have hdy : 0 < gridDx projY (padBboxEloran b).minLat (padBboxEloran b).maxLat ny := by
    have hlt : (padBboxEloran b).minLat < (padBboxEloran b).maxLat := by linarith
    exact div_pos (sub_pos.mpr (hmy hlt)) hdeny
  exact ⟨hx, hy, hdx, hdy⟩

/-- C6 amended witness: the padding guarantee applied to a fully
degenerate bounding box with the identity projection and a 200 × 200
grid. -/
theorem c6_amended_witness :
    (1/50 : ℚ) ≤ (padBboxEloran ⟨0, 0, 0, 0⟩).maxLng - (padBboxEloran ⟨0, 0, 0, 0⟩).minLng
    ∧ (1/50 : ℚ) ≤ (padBboxEloran ⟨0, 0, 0, 0⟩).maxLat - (padBboxEloran ⟨0, 0, 0, 0⟩).minLat
    ∧ 0 < gridDx id (padBboxEloran ⟨0, 0, 0, 0⟩).minLng (padBboxEloran ⟨0, 0, 0, 0⟩).maxLng 200
    ∧ 0 < gridDx id (padBboxEloran ⟨0, 0, 0, 0⟩).minLat (padBboxEloran ⟨0, 0, 0, 0⟩).maxLat 200 :=
  c6_amended_eloran_padding_positive ⟨0, 0, 0, 0⟩ id id 200 200 le_rfl le_rfl
    strictMono_id strictMono_id (by norm_num) (by norm_num)

/-! ### Marching squares (Loranc.jsx worker lines 17-185, gridWorker.js
lines 50-87) -/

/-- Corner-sign case index: bit 1 for v00 ≥ level, bit 2 for v10, bit 4
for v11, bit 8 for v01 (Loranc worker lines 142-146, gridWorker.js line
63 with level fixed to 0). -/
def caseIndex (v00 v10 v11 v01 level : ℚ) : ℕ :=
  (if level ≤ v00 then 1 else 0) + (if level ≤ v10 then 2 else 0)
    + (if level ≤ v11 then 4 else 0) + (if level ≤ v01 then 8 else 0)

/-- EDGE_PAIRS_BY_CASE lookup table (Loranc worker lines 17-32). -/
def EDGE_PAIRS_BY_CASE : ℕ → List (ℕ × ℕ)
  | 1 => [(0, 3)]
  | 2 => [(0, 1)]
  | 3 => [(1, 3)]
  | 4 => [(1, 2)]
  | 5 => [(0, 1), (2, 3)]
  | 6 => [(0, 2)]
  | 7 => [(2, 3)]
  | 8 => [(2, 3)]
  | 9 => [(0, 2)]
  | 10 => [(0, 3), (1, 2)]
  | 11 => [(1, 2)]
  | 12 => [(1, 3)]
  | 13 => [(0, 1)]
  | 14 => [(0, 3)]
  | _ => []

/-- Per-cell edge-pair selection of the Loranc extractor (worker lines
142-163): cases 0/15 yield nothing, the ambiguous cases 5 and 10 are
resolved by comparing the corner average against the level, all other
cases use the table entry. -/
def resolvedPairs (v00 v10 v11 v01 level : ℚ) : List (ℕ × ℕ) :=
  let idxCase := caseIndex v00 v10 v11 v01 level
  if idxCase = 0 ∨ idxCase = 15 then []
  else
    let edgePairs := EDGE_PAIRS_BY_CASE idxCase
    if (idxCase = 5 ∨ idxCase = 10) ∧ edgePairs.length = 2 then
      let center := (v00 + v10 + v11 + v01) * (1/4)
      if level ≤ center then
        (if idxCase = 5 then [(0, 1)] else [(0, 3)])
      else
        (if idxCase = 5 then [(2, 3)] else [(1, 2)])
    else edgePairs

/-- Zero-level edge interpolation of gridWorker.js (lines 69-72):
midpoint when the corner values coincide, otherwise weighted by absolute
values. -/
def interpZero (x1 y1 v1 x2 y2 v2 : ℚ) : ℚ × ℚ :=
  let t := if v1 = v2 then 1/2 else |v1| / (|v1| + |v2|)
  (x1 + (x2 - x1) * t, y1 + (y2 - y1) * t)

/-- Crossing points pushed by one cell of marchingSquaresZero
(gridWorker.js lines 75-78), in the source's fixed edge order: left,
top, right, bottom. -/
def msCellPoints (v00 v10 v11 v01 x0 y0 x1 y1 : ℚ) : List (ℚ × ℚ) :=
  (if (0 ≤ v00) ↔ (0 ≤ v01) then [] else [interpZero x0 y0 v00 x0 y1 v01])
    ++ (if (0 ≤ v00) ↔ (0 ≤ v10) then [] else [interpZero x0 y0 v00 x1 y0 v10])
    ++ (if (0 ≤ v10) ↔ (0 ≤ v11) then [] else [interpZero x1 y0 v10 x1 y1 v11])
    ++ (if (0 ≤ v01) ↔ (0 ≤ v11) then [] else [interpZero x0 y1 v01 x1 y1 v11])

/-- Polylines emitted by one cell of marchingSquaresZero (gridWorker.js
lines 53-84): all crossing points of the cell are pushed into a single
polyline when there are at least two of them. -/
def msCellLines (v00 v10 v11 v01 x0 y0 x1 y1 : ℚ) : List (List (ℚ × ℚ)) :=
  let cIdx := caseIndex v00 v10 v11 v01 0
  if cIdx = 0 ∨ cIdx = 15 then []
  else
    let pts := msCellPoints v00 v10 v11 v01 x0 y0 x1 y1
    if 2 ≤ pts.length then [pts] else []

/-- Drawn segments contributed by one cell: a polyline of k points is
rendered as k − 1 line segments. -/
def msCellSegmentCount (v00 v10 v11 v01 x0 y0 x1 y1 : ℚ) : ℕ :=
  ((msCellLines v00 v10 v11 v01 x0 y0 x1 y1).map (fun l => l.length - 1)).sum

/-- C5 counterexample: the claim fails on the gridWorker extractor
marchingSquaresZero.  On the alternating-corner cell (3, −1, 3, −1)
(case 5) it emits one polyline of 4 points — 3 drawn segments, not 0–2 —
and the cell (1, −3, 1, −3), whose corner average lies on the other side
of the level, produces exactly the same single-polyline grouping, so the
pairing is not determined by the average. -/
theorem c5_counterexample_gridworker_ambiguous_cell :
    msCellSegmentCount 3 (-1) 3 (-1) 0 0 1 1 = 3
    ∧ ¬ (msCellSegmentCount 3 (-1) 3 (-1) 0 0 1 1 ≤ 2)
    ∧ caseIndex 3 (-1) 3 (-1) 0 = 5
    ∧ caseIndex 1 (-3) 1 (-3) 0 = 5
    ∧ (0 : ℚ) ≤ ((3 : ℚ) + -1 + 3 + -1) * (1/4)
    ∧ ¬ ((0 : ℚ) ≤ ((1 : ℚ) + -3 + 1 + -3) * (1/4))
    ∧ (msCellLines 3 (-1) 3 (-1) 0 0 1 1).map List.length
        = (msCellLines 1 (-3) 1 (-3) 0 0 1 1).map List.length := by
  refine ⟨?_, ?_, ?_, ?_, ?_, ?_, ?_⟩ <;>
    norm_num [msCellSegmentCount, msCellLines, msCellPoints, caseIndex, interpZero]

/-- C5 amended: the Loranc extractor classifies each cell into at most 2
crossing segments and resolves the ambiguous alternating-corner cases 5
and 10 by comparing the corner average against the level; the gridWorker
zero-level extractor instead emits every crossing point of such a cell
(4 of them) as one polyline in a fixed edge order, independent of the
corner average. -/
theorem c5_amended_marching_squares (v00 v10 v11 v01 level : ℚ)
    (a00 a10 a11 a01 lvlA : ℚ) (b00 b10 b11 b01 lvlB : ℚ)
    (u00 u10 u11 u01 ux0 uy0 ux1 uy1 : ℚ)
    (ha00 : lvlA ≤ a00) (ha10 : ¬ lvlA ≤ a10) (ha11 : lvlA ≤ a11) (ha01 : ¬ lvlA ≤ a01)
    (hb00 : ¬ lvlB ≤ b00) (hb10 : lvlB ≤ b10) (hb11 : ¬ lvlB ≤ b11) (hb01 : lvlB ≤ b01)
    (hu00 : (0 : ℚ) ≤ u00) (hu10 : ¬ (0 : ℚ) ≤ u10)
    (hu11 : (0 : ℚ) ≤ u11) (hu01 : ¬ (0 : ℚ) ≤ u01) :
    (resolvedPairs v00 v10 v11 v01 level).length ≤ 2
    ∧ resolvedPairs a00 a10 a11 a01 lvlA
        = (if lvlA ≤ (a00 + a10 + a11 + a01) * (1/4) then [(0, 1)] else [(2, 3)])
    ∧ resolvedPairs b00 b10 b11 b01 lvlB
        = (if lvlB ≤ (b00 + b10 + b11 + b01) * (1/4) then [(0, 3)] else [(1, 2)])
    ∧ msCellLines u00 u10 u11 u01 ux0 uy0 ux1 uy1
        = [[interpZero ux0 uy0 u00 ux0 uy1 u01, interpZero ux0 uy0 u00 ux1 uy0 u10,
            interpZero ux1 uy0 u10 ux1 uy1 u11, interpZero ux0 uy1 u01 ux1 uy1 u11]] := by
  refine ⟨?_, ?_, ?_, ?_⟩
  · by_cases h00 : level ≤ v00 <;> by_cases h10 : level ≤ v10 <;>
      by_cases h11 : level ≤ v11 <;> by_cases h01 : level ≤ v01 <;>
      simp [resolvedPairs, caseIndex, EDGE_PAIRS_BY_CASE, h00, h10, h11, h01] <;>
      split_ifs <;> simp
  · simp [resolvedPairs, caseIndex, EDGE_PAIRS_BY_CASE, ha00, ha10, ha11, ha01]
  · simp [resolvedPairs, caseIndex, EDGE_PAIRS_BY_CASE, hb00, hb10, hb11, hb01]
  · have hiff1 : ¬ ((0 : ℚ) ≤ u00 ↔ (0 : ℚ) ≤ u01) := by tauto
    have hiff2 : ¬ ((0 : ℚ) ≤ u00 ↔ (0 : ℚ) ≤ u10) := by tauto
    have hiff3 : ¬ ((0 : ℚ) ≤ u10 ↔ (0 : ℚ) ≤ u11) := by tauto
    have hiff4 : ¬ ((0 : ℚ) ≤ u01 ↔ (0 : ℚ) ≤ u11) := by tauto
    simp [msCellLines, msCellPoints, caseIndex, hu00, hu10, hu11, hu01,
      hiff1, hiff2, hiff3, hiff4]

/-- C5 amended witness: the three cell patterns instantiated at concrete
corner values (case 5 at (3,−1,3,−1), case 10 at (−1,3,−1,3), gridWorker
case-5 cell at (3,−1,3,−1) on the unit cell). -/
theorem c5_amended_witness :
    (resolvedPairs 1 2 3 4 0).length ≤ 2
    ∧ resolvedPairs 3 (-1) 3 (-1) 0
        = (if (0 : ℚ) ≤ ((3 : ℚ) + -1 + 3 + -1) * (1/4) then [(0, 1)] else [(2, 3)])
    ∧ resolvedPairs (-1) 3 (-1) 3 0
        = (if (0 : ℚ) ≤ ((-1 : ℚ) + 3 + -1 + 3) * (1/4) then [(0, 3)] else [(1, 2)])
    ∧ msCellLines 3 (-1) 3 (-1) 0 0 1 1
        = [[interpZero 0 0 3 0 1 (-1), interpZero 0 0 3 1 0 (-1),
            interpZero 1 0 (-1) 1 1 3, interpZero 0 1 (-1) 1 1 3]] :=
  c5_amended_marching_squares 1 2 3 4 0 3 (-1) 3 (-1) 0 (-1) 3 (-1) 3 0
    3 (-1) 3 (-1) 0 0 1 1
    (by norm_num) (by norm_num) (by norm_num) (by norm_num)
    (by norm_num) (by norm_num) (by norm_num) (by norm_num)
    (by norm_num) (by norm_num) (by norm_num) (by norm_num)

/-! ### ASF expression vetting (Eloran.jsx lines 1047-1105,
asfWorker.js) -/

/-- JavaScript word character class \w = [A-Za-z0-9_]. -/
def isWordChar (c : Char) : Bool := c.isAlpha || c.isDigit || c = '_'

/-- Case-insensitive prefix match returning the rest of the string. -/
def ciPrefixRest : List Char → List Char → Option (List Char)
  | [], s => some s
  | _ :: _, [] => none
  | t :: ts, c :: cs => if t.toLower = c.toLower then ciPrefixRest ts cs else none

/-- Does the token occur at the head of s with a word boundary after it? -/
def wordAtHead (tok s : List Char) : Bool :=
  match ciPrefixRest tok s with
  | none => false
  | some [] => true
  | some (c :: _) => !(isWordChar c)

/-- Scan for a word-bounded, case-insensitive occurrence; the Bool flag
records whether the current position follows a word boundary. -/
def wordScan (tok : List Char) : Bool → List Char → Bool
  | _, [] => false
  | bnd, c :: cs => (bnd && wordAtHead tok (c :: cs)) || wordScan tok (!(isWordChar c)) cs

/-- Semantics of the vetting regular expression
RegExp('\\b' + tok + '\\b', 'i') applied by applyAsfToMaster
(Eloran.jsx lines 1052-1055). -/
def wordOccurs (tok code : String) : Bool :=
  wordScan tok.toList true code.toList

/-- The blacklist of applyAsfToMaster (Eloran.jsx line 1051). -/
def asfBlacklist : List String :=
  ["window", "document", "fetch", "XMLHttpRequest",
   "importScripts", "self", "postMessage", "location", "navigator", "require"]

/-- ASF code rejection test of applyAsfToMaster (Eloran.jsx lines
1052-1055): the code is rejected exactly when some blacklisted token
occurs in it as a whole word, case-insensitively.  This is the only
static vetting the program performs before handing the code to
new Function. -/
def asfBlacklistRejects (code : String) : Bool :=
  asfBlacklist.any (fun t => wordOccurs t code)

/-- Maximal word-character runs of a string (accumulator holds the
current run reversed). -/
def identsAux : List Char → List Char → List (List Char)
  | [], cur => if cur.isEmpty then [] else [cur.reverse]
  | c :: cs, cur =>
    if isWordChar c then identsAux cs (c :: cur)
    else if cur.isEmpty then identsAux cs [] else cur.reverse :: identsAux cs []

/-- Identifier-like tokens referenced by an ASF expression. -/
def identifiersOf (code : String) : List String :=
  (identsAux code.toList []).map (fun l => String.mk l)

/-- The allow-list named by the specification (§6): Math function and
constant names plus the two parameters lat and lng (with the statement
keyword return, since the snippets are function bodies). -/
def asfAllowList : List String :=
  ["lat", "lng", "return",
   "abs", "acos", "acosh", "asin", "asinh", "atan", "atan2", "atanh",
   "cbrt", "ceil", "clz32", "cos", "cosh", "exp", "expm1", "floor",
   "fround", "hypot", "imul", "log", "log10", "log1p", "log2", "max",
   "min", "pow", "random", "round", "sign", "sin", "sinh", "sqrt",
   "tan", "tanh", "trunc", "PI", "E", "LN10", "LN2", "LOG10E", "LOG2E",
   "SQRT1_2", "SQRT2"]

/-- C9 counterexample: the vetting is a 10-token blacklist, not an
allow-list.  The expression body "return globalThis" references the
identifier globalThis, which is outside the allow-list of math functions
and the two parameters, yet the program does not reject it (and the
asfWorker would evaluate it). -/
theorem c9_counterexample_allowlist_not_enforced :
    "globalThis" ∈ identifiersOf "return globalThis"
    ∧ "globalThis" ∉ asfAllowList
    ∧ asfBlacklistRejects "return globalThis" = false := by
  refine ⟨by decide, by decide, by decide⟩

/-- C9 amended: ASF vetting rejects exactly the expressions containing
one of the ten blacklisted tokens as a whole word (case-insensitively);
identifiers outside that blacklist are not rejected; and a station whose
ASF callback is unavailable (evaluation failed) contributes zero ASF
meters to the computed arrival. -/
theorem c9_amended_blacklist_semantics_and_zero_fallback (code : String)
    (distFn : Dist) (st : Station) (lat lng t : ℚ) (hasf : st.asfMap = none) :
    (asfBlacklistRejects code = true
      ↔ ∃ tok ∈ asfBlacklist, wordOccurs tok code = true)
    ∧ computeArrivalSec distFn st lat lng t
        = distFn st.lat st.lng lat lng / Cc + st.offsetSec
          + simulateClockTick (effClock st.clock) t
          + (0 - diffCorrMeters st.diffCorrections) / Cc := by
  constructor
  · simp [asfBlacklistRejects, List.any_eq_true]
  · simp [computeArrivalSec, asfSample, hasf]

/-- C9 amended witness: the blacklist characterisation at the code
string "return window.alert" and the zero-ASF fallback at a concrete
station without an ASF callback. -/
theorem c9_amended_witness :
    (asfBlacklistRejects "return window.alert" = true
      ↔ ∃ tok ∈ asfBlacklist, wordOccurs tok "return window.alert" = true)
    ∧ computeArrivalSec (fun _ _ _ _ => 100)
        (Station.mk "M1" 0 0 none 5 none none) 1 2 3
        = (fun (_ _ _ _ : ℚ) => (100 : ℚ)) 0 0 1 2 / Cc + 5
          + simulateClockTick (effClock none) 3
          + (0 - diffCorrMeters none) / Cc :=
  c9_amended_blacklist_semantics_and_zero_fallback "return window.alert"
    (fun _ _ _ _ => 100) (Station.mk "M1" 0 0 none 5 none none) 1 2 3 rfl

/-! ### Position solver (Eloran.jsx lines 789-860; Loranc.jsx lines
345-391 is the same loop without the covariance tail).  Math.sqrt,
Math.cos and Math.PI are abstracted as the parameters sqrtQ, cosQ and
piQ; Math.hypot(a,b) is sqrtQ(a·a + b·b). -/

/-- One TDOA observation: master and slave positions plus the observed
time difference in seconds. -/
structure TdoaPair where
  master : GeoPt
  slave : GeoPt
  tdoaSec : ℚ
  deriving DecidableEq

/-- A 2×2 rational matrix [[a, b], [c, d]]. -/
structure Mat2 where
  a : ℚ
  b : ℚ
  c : ℚ
  d : ℚ
  deriving DecidableEq

def mat2Zero : Mat2 := ⟨0, 0, 0, 0⟩

def mat2Id : Mat2 := ⟨1, 0, 0, 1⟩

def det2 (m : Mat2) : ℚ := m.a * m.d - m.b * m.c

def smul2 (q : ℚ) (m : Mat2) : Mat2 := ⟨q * m.a, q * m.b, q * m.c, q * m.d⟩

def mat2Mul (m n : Mat2) : Mat2 :=
  ⟨m.a * n.a + m.b * n.c, m.a * n.b + m.b * n.d,
   m.c * n.a + m.d * n.c, m.c * n.b + m.d * n.d⟩

/-- The closed-form 2×2 inverse used by the source (adjugate over
determinant). -/
def inv2 (m : Mat2) : Mat2 :=
  ⟨m.d / det2 m, -m.b / det2 m, -m.c / det2 m, m.a / det2 m⟩

def mat2Trace (m : Mat2) : ℚ := m.a + m.d

/-- Discriminant trace²/4 − det of the closed-form 2×2 eigenvalue. -/
def mat2Discr (m : Mat2) : ℚ := mat2Trace m * mat2Trace m / 4 - det2 m

/-- latLngToXY (Eloran.jsx lines 791-796): local equirectangular planar
approximation around the reference latitude. -/
def latLngToXY (cosQ : ℚ → ℚ) (piQ refLat lat lng : ℚ) : ℚ × ℚ :=
  ((lng * piQ / 180) * 6371000 * cosQ (refLat * piQ / 180),
   (lat * piQ / 180) * 6371000)

/-- Math.hypot(a, b). -/
def hypotQ (sqrtQ : ℚ → ℚ) (a b : ℚ) : ℚ := sqrtQ (a * a + b * b)

/-- Jacobian rows and residuals of one Gauss-Newton iteration
(Eloran.jsx lines 803-816). -/
def buildJr (sqrtQ cosQ : ℚ → ℚ) (piQ refLat : ℚ) (pairs : List TdoaPair)
    (x0 y0 : ℚ) : List ((ℚ × ℚ) × ℚ) :=
  pairs.map (fun p =>
    let mxy := latLngToXY cosQ piQ refLat p.master.lat p.master.lng
    let sxy := latLngToXY cosQ piQ refLat p.slave.lat p.slave.lng
    let dM := hypotQ sqrtQ (x0 - mxy.1) (y0 - mxy.2)
    let dS := hypotQ sqrtQ (x0 - sxy.1) (y0 - sxy.2)
    let modeledDelta := (dS - dM) / Cc
    let ri := p.tdoaSec - modeledDelta
    let ddx := ((x0 - sxy.1) / dS - (x0 - mxy.1) / dM) / Cc
    let ddy := ((y0 - sxy.2) / dS - (y0 - mxy.2) / dM) / Cc
    ((ddx, ddy), ri))

/-- Accumulation step of the normal equations (Eloran.jsx lines
819-824). -/
def normStep (acc : Mat2 × (ℚ × ℚ)) (x : (ℚ × ℚ) × ℚ) : Mat2 × (ℚ × ℚ) :=
  (⟨acc.1.a + x.1.1 * x.1.1, acc.1.b + x.1.1 * x.1.2,
    acc.1.c + x.1.2 * x.1.1, acc.1.d + x.1.2 * x.1.2⟩,
   (acc.2.1 + x.1.1 * x.2, acc.2.2 + x.1.2 * x.2))

/-- JᵗJ and Jᵗr of one iteration (Eloran.jsx lines 817-824). -/
def accumNormal (jr : List ((ℚ × ℚ) × ℚ)) : Mat2 × (ℚ × ℚ) :=
  jr.foldl normStep (mat2Zero, (0, 0))

/-- Loop state: current iterate (x0, y0) plus the retained JTJ_final and
r_final (Eloran.jsx lines 800-801, updated at lines 832-833). -/
structure GnState where
  x0 : ℚ
  y0 : ℚ
  jtjF : Mat2
  rF : List ℚ
  deriving DecidableEq

/-- Normal equations evaluated at a loop state. -/
def gnNormal (sqrtQ cosQ : ℚ → ℚ) (piQ refLat : ℚ) (pairs : List TdoaPair)
    (s : GnState) : Mat2 × (ℚ × ℚ) :=
  accumNormal (buildJr sqrtQ cosQ piQ refLat pairs s.x0 s.y0)

/-- Update component dx (Eloran.jsx lines 827-828): first row of
inv(JᵗJ)·Jᵗr with the closed-form inverse. -/
def gnDx (sqrtQ cosQ : ℚ → ℚ) (piQ refLat : ℚ) (pairs : List TdoaPair)
    (s : GnState) : ℚ :=
  let jtj := (gnNormal sqrtQ cosQ piQ refLat pairs s).1
  let jtr := (gnNormal sqrtQ cosQ piQ refLat pairs s).2
  (jtj.d / det2 jtj) * jtr.1 + (-jtj.b / det2 jtj) * jtr.2

/-- Update component dy (Eloran.jsx lines 827-829). -/
def gnDy (sqrtQ cosQ : ℚ → ℚ) (piQ refLat : ℚ) (pairs : List TdoaPair)
    (s : GnState) : ℚ :=
  let jtj := (gnNormal sqrtQ cosQ piQ refLat pairs s).1
  let jtr := (gnNormal sqrtQ cosQ piQ refLat pairs s).2
  (-jtj.c / det2 jtj) * jtr.1 + (jtj.a / det2 jtj) * jtr.2

/-- Residual vector r of one iteration (r.slice() at Eloran.jsx line
833). -/
def gnResiduals (sqrtQ cosQ : ℚ → ℚ) (piQ refLat : ℚ) (pairs : List TdoaPair)
    (s : GnState) : List ℚ :=
  (buildJr sqrtQ cosQ piQ refLat pairs s.x0 s.y0).map (fun x => x.2)

/-- The Gauss-Newton iteration loop (Eloran.jsx lines 802-834), with the
remaining iteration budget as fuel.  A singular normal matrix
(|det| < 1e-12) stops the loop before applying any update; a small step
(‖Δ‖ < 1e-6) stops it after applying the update but — exactly as in the
source — before JTJ_final and r_final are overwritten. -/
def gnLoop (sqrtQ cosQ : ℚ → ℚ) (piQ refLat : ℚ) (pairs : List TdoaPair) :
    ℕ → GnState → GnState
  | 0, s => s
  | n + 1, s =>
    let jtj := (gnNormal sqrtQ cosQ piQ refLat pairs s).1
    if |det2 jtj| < 1/1000000000000 then s
    else
      let dx := gnDx sqrtQ cosQ piQ refLat pairs s
      let dy := gnDy sqrtQ cosQ piQ refLat pairs s
      if hypotQ sqrtQ dx dy < 1/1000000 then ⟨s.x0 + dx, s.y0 + dy, s.jtjF, s.rF⟩
      else gnLoop sqrtQ cosQ piQ refLat pairs n
        ⟨s.x0 + dx, s.y0 + dy, jtj, gnResiduals sqrtQ cosQ piQ refLat pairs s⟩

/-- Number of loop iterations actually executed for a given fuel. -/
def gnSteps (sqrtQ cosQ : ℚ → ℚ) (piQ refLat : ℚ) (pairs : List TdoaPair) :
    ℕ → GnState → ℕ
  | 0, _ => 0
  | n + 1, s =>
    let jtj := (gnNormal sqrtQ cosQ piQ refLat pairs s).1
    if |det2 jtj| < 1/1000000000000 then 1
    else
      let dx := gnDx sqrtQ cosQ piQ refLat pairs s
      let dy := gnDy sqrtQ cosQ piQ refLat pairs s
      if hypotQ sqrtQ dx dy < 1/1000000 then 1
      else 1 + gnSteps sqrtQ cosQ piQ refLat pairs n
        ⟨s.x0 + dx, s.y0 + dy, jtj, gnResiduals sqrtQ cosQ piQ refLat pairs s⟩

/-- Initial loop state (Eloran.jsx lines 797-801). -/
def gnInitState (cosQ : ℚ → ℚ) (piQ : ℚ) (init : GeoPt) : GnState :=
  ⟨(latLngToXY cosQ piQ init.lat init.lat init.lng).1,
   (latLngToXY cosQ piQ init.lat init.lat init.lng).2,
   mat2Zero, []⟩

/-- Loop state at exit: the loop runs with the fixed cap of 30
iterations (Eloran.jsx line 799). -/
def gnFinal (sqrtQ cosQ : ℚ → ℚ) (piQ : ℚ) (pairs : List TdoaPair)
    (init : GeoPt) : GnState :=
  gnLoop sqrtQ cosQ piQ init.lat pairs 30 (gnInitState cosQ piQ init)

/-- Residual variance estimate (Eloran.jsx lines 839-844): RSS over
max(1, m − 2) when m > 2, and 0 otherwise. -/
def sigma2Code (resids : List ℚ) : ℚ :=
  if 2 < resids.length then
    (resids.foldl (fun a b => a + b * b) 0) / max 1 ((resids.length : ℚ) - 2)
  else 0

/-- Covariance tail of the solver (Eloran.jsx lines 845-851):
sigma2 · inv(JTJ_final) when |det| > 1e-12, the zero matrix otherwise. -/
def covOf (s : GnState) : Mat2 :=
  let sigma2 := sigma2Code s.rF
  let detF := det2 s.jtjF
  if 1/1000000000000 < |detF| then
    ⟨sigma2 * (s.jtjF.d / detF), sigma2 * (-s.jtjF.b / detF),
     sigma2 * (-s.jtjF.c / detF), sigma2 * (s.jtjF.a / detF)⟩
  else mat2Zero

/-- HPL tail of the solver (Eloran.jsx lines 852-857): 3·sqrt of the
clamped closed-form largest eigenvalue from trace and determinant. -/
def hplOf (sqrtQ : ℚ → ℚ) (cov : Mat2) : ℚ :=
  let trace := cov.a + cov.d
  let detC := det2 cov
  let tm := sqrtQ (max 0 (trace * trace / 4 - detC))
  let lambda1 := max 0 (trace / 2 + tm)
  3 * sqrtQ (max 0 lambda1)

/-- Solver result record (Eloran.jsx line 859). -/
structure SolveResult where
  lat : ℚ
  lng : ℚ
  covariance : Mat2
  hplMeters : ℚ
  deriving DecidableEq

/-- solvePositionFromTDOA (Eloran.jsx lines 789-860). -/
def solvePositionFromTDOA (sqrtQ cosQ : ℚ → ℚ) (piQ : ℚ)
    (pairs : List TdoaPair) (init : GeoPt) : SolveResult :=
  let s := gnFinal sqrtQ cosQ piQ pairs init
  ⟨(s.y0 / 6371000) * 180 / piQ,
   (s.x0 / (6371000 * cosQ (init.lat * piQ / 180))) * 180 / piQ,
   covOf s,
   hplOf sqrtQ (covOf s)⟩

/-- Residual variance written after the specification §4.3: residual sum
of squares over the degrees of freedom count − 2, guarded against a
non-positive denominator. -/
def sigma2Spec (resids : List ℚ) : ℚ :=
  if 2 < resids.length then
    (resids.map (fun r => r * r)).sum / ((resids.length : ℚ) - 2)
  else 0

/-- HPL written after the specification §4.3: 3·sqrt of the largest
eigenvalue of the covariance, the eigenvalue in closed form from trace
and determinant. -/
def hplSpec (sqrtQ : ℚ → ℚ) (cov : Mat2) : ℚ :=
  3 * sqrtQ (max 0 (mat2Trace cov / 2 + sqrtQ (max 0 (mat2Discr cov))))

theorem foldl_add_sq_eq_sum :
    ∀ (l : List ℚ) (a : ℚ), l.foldl (fun x y => x + y * y) a = a + (l.map (fun r => r * r)).sum := by
  intro l
  induction l with
  | nil => intro a; simp
  | cons x xs ih => intro a; simp [ih]; ring

theorem sigma2Code_eq_spec (l : List ℚ) : sigma2Code l = sigma2Spec l := by
  by_cases h : 2 < l.length
  · have h3 : (3 : ℚ) ≤ (l.length : ℚ) := by exact_mod_cast h
    have hmax : max 1 ((l.length : ℚ) - 2) = (l.length : ℚ) - 2 :=
      max_eq_right (by linarith)
    simp [sigma2Code, sigma2Spec, h, hmax, foldl_add_sq_eq_sum]
  · simp [sigma2Code, sigma2Spec, h]

theorem covOf_eq_spec (s : GnState) (hg : 1/1000000000000 < |det2 s.jtjF|) :
    covOf s = smul2 (sigma2Spec s.rF) (inv2 s.jtjF) := by
  have hg' : ¬ |det2 s.jtjF| ≤ (1000000000000 : ℚ)⁻¹ := by
    rw [← one_div]
    exact not_le.mpr hg
  simp [covOf, smul2, inv2, hg', sigma2Code_eq_spec]

theorem covOf_mul_jtj (s : GnState) (hg : 1/1000000000000 < |det2 s.jtjF|) :
    mat2Mul (covOf s) s.jtjF = smul2 (sigma2Code s.rF) mat2Id := by
  have hne : det2 s.jtjF ≠ 0 := by
    intro h0
    rw [h0] at hg
    norm_num at hg
  simp only [covOf, mat2Mul, smul2, mat2Id, if_pos hg, Mat2.mk.injEq]
  simp only [det2] at hne ⊢
  refine ⟨?_, ?_, ?_, ?_⟩ <;> field_simp <;> ring

theorem max_zero_idem (x : ℚ) : max 0 (max 0 x) = max 0 x := by
  rw [← max_assoc, max_self]

theorem hplOf_eq_spec (sqrtQ : ℚ → ℚ) (cov : Mat2) :
    hplOf sqrtQ cov = hplSpec sqrtQ cov := by
  simp [hplOf, hplSpec, mat2Discr, mat2Trace, max_zero_idem]

theorem closed_eigenvalue_root (M : Mat2) (sq : ℚ) (h1 : sq * sq = mat2Discr M) :
    (mat2Trace M / 2 + sq) * (mat2Trace M / 2 + sq)
      - mat2Trace M * (mat2Trace M / 2 + sq) + det2 M = 0 := by
  simp only [mat2Discr, mat2Trace, det2] at h1 ⊢
  linear_combination h1

/-- C3: for every solver run, the returned covariance is sigma2 times
the closed-form inverse of the retained final normal matrix JTJ_final
(with sigma2 = RSS/(count − 2) guarded against a non-positive
denominator), that product is a true matrix inverse scaled by sigma2,
and the returned HPL is 3·sqrt of the clamped closed-form largest
eigenvalue of that covariance; under the hypotheses that sqrtQ behaves
as a square root on the eigenvalue discriminant, the closed-form value
is a root of the covariance's characteristic polynomial and dominates
the other root. -/
theorem c3_solver_covariance_and_hpl (sqrtQ cosQ : ℚ → ℚ) (piQ : ℚ)
    (pairs : List TdoaPair) (init : GeoPt)
    (hguard : 1/1000000000000 < |det2 (gnFinal sqrtQ cosQ piQ pairs init).jtjF|)
    (hs0 : 0 ≤ sqrtQ (mat2Discr (solvePositionFromTDOA sqrtQ cosQ piQ pairs init).covariance))
    (hs1 : sqrtQ (mat2Discr (solvePositionFromTDOA sqrtQ cosQ piQ pairs init).covariance)
          * sqrtQ (mat2Discr (solvePositionFromTDOA sqrtQ cosQ piQ pairs init).covariance)
        = mat2Discr (solvePositionFromTDOA sqrtQ cosQ piQ pairs init).covariance) :
    (solvePositionFromTDOA sqrtQ cosQ piQ pairs init).covariance
        = smul2 (sigma2Spec (gnFinal sqrtQ cosQ piQ pairs init).rF)
            (inv2 (gnFinal sqrtQ cosQ piQ pairs init).jtjF)
    ∧ mat2Mul (solvePositionFromTDOA sqrtQ cosQ piQ pairs init).covariance
          (gnFinal sqrtQ cosQ piQ pairs init).jtjF
        = smul2 (sigma2Spec (gnFinal sqrtQ cosQ piQ pairs init).rF) mat2Id
    ∧ (solvePositionFromTDOA sqrtQ cosQ piQ pairs init).hplMeters
        = hplSpec sqrtQ (solvePositionFromTDOA sqrtQ cosQ piQ pairs init).covariance
    ∧ (mat2Trace (solvePositionFromTDOA sqrtQ cosQ piQ pairs init).covariance / 2
          + sqrtQ (mat2Discr (solvePositionFromTDOA sqrtQ cosQ piQ pairs init).covariance))
        * (mat2Trace (solvePositionFromTDOA sqrtQ cosQ piQ pairs init).covariance / 2
          + sqrtQ (mat2Discr (solvePositionFromTDOA sqrtQ cosQ piQ pairs init).covariance))
        - mat2Trace (solvePositionFromTDOA sqrtQ cosQ piQ pairs init).covariance
          * (mat2Trace (solvePositionFromTDOA sqrtQ cosQ piQ pairs init).covariance / 2
            + sqrtQ (mat2Discr (solvePositionFromTDOA sqrtQ cosQ piQ pairs init).covariance))
        + det2 (solvePositionFromTDOA sqrtQ cosQ piQ pairs init).covariance = 0
    ∧ mat2Trace (solvePositionFromTDOA sqrtQ cosQ piQ pairs init).covariance / 2
          - sqrtQ (mat2Discr (solvePositionFromTDOA sqrtQ cosQ piQ pairs init).covariance)
        ≤ mat2Trace (solvePositionFromTDOA sqrtQ cosQ piQ pairs init).covariance / 2
          + sqrtQ (mat2Discr (solvePositionFromTDOA sqrtQ cosQ piQ pairs init).covariance) := by
  have hcov : (solvePositionFromTDOA sqrtQ cosQ piQ pairs init).covariance
      = covOf (gnFinal sqrtQ cosQ piQ pairs init) := rfl
  have hhpl : (solvePositionFromTDOA sqrtQ cosQ piQ pairs init).hplMeters
      = hplOf sqrtQ (covOf (gnFinal sqrtQ cosQ piQ pairs init)) := rfl
  refine ⟨?_, ?_, ?_, ?_, ?_⟩
  · rw [hcov]
    exact covOf_eq_spec _ hguard
  · rw [hcov]
    rw [covOf_mul_jtj _ hguard, sigma2Code_eq_spec]
  · rw [hhpl, hcov]
    exact hplOf_eq_spec sqrtQ _
  · exact closed_eigenvalue_root _ _ hs1
  · linarith

theorem gnSteps_le_fuel (sqrtQ cosQ : ℚ → ℚ) (piQ refLat : ℚ)
    (pairs : List TdoaPair) :
    ∀ (fuel : ℕ) (s : GnState), gnSteps sqrtQ cosQ piQ refLat pairs fuel s ≤ fuel := by
  intro fuel
  induction fuel with
  | zero => intro s; simp [gnSteps]
  | succ n ih =>
    intro s
    simp only [gnSteps]
    split_ifs with h1 h2
    · omega
    · omega
    · have hx := ih ⟨s.x0 + gnDx sqrtQ cosQ piQ refLat pairs s,
        s.y0 + gnDy sqrtQ cosQ piQ refLat pairs s,
        (gnNormal sqrtQ cosQ piQ refLat pairs s).1,
        gnResiduals sqrtQ cosQ piQ refLat pairs s⟩
      omega

/-- C7: the Gauss-Newton loop stops and returns the incoming iterate
unchanged when the normal-equation determinant is numerically singular
(|det| < 1e-12); it stops after applying the update (without touching
JTJ_final / r_final) when the step norm falls below 1e-6; and it
executes at most fuel iterations — in particular at most the fixed cap
of 30 used by solvePositionFromTDOA.  Termination never throws: the
embedding is a total function. -/
theorem c7_solver_termination (sqrtQ cosQ : ℚ → ℚ) (piQ refLat : ℚ)
    (pairs : List TdoaPair) (fuel fuel2 fuel3 : ℕ) (s s2 s3 : GnState) (init : GeoPt)
    (hsing : |det2 (gnNormal sqrtQ cosQ piQ refLat pairs s).1| < 1/1000000000000)
    (hns : ¬ |det2 (gnNormal sqrtQ cosQ piQ refLat pairs s2).1| < 1/1000000000000)
    (hsmall : hypotQ sqrtQ (gnDx sqrtQ cosQ piQ refLat pairs s2)
        (gnDy sqrtQ cosQ piQ refLat pairs s2) < 1/1000000) :
    gnLoop sqrtQ cosQ piQ refLat pairs (fuel + 1) s = s
    ∧ gnLoop sqrtQ cosQ piQ refLat pairs (fuel2 + 1) s2
        = ⟨s2.x0 + gnDx sqrtQ cosQ piQ refLat pairs s2,
           s2.y0 + gnDy sqrtQ cosQ piQ refLat pairs s2, s2.jtjF, s2.rF⟩
    ∧ gnSteps sqrtQ cosQ piQ refLat pairs fuel3 s3 ≤ fuel3
    ∧ gnSteps sqrtQ cosQ piQ init.lat pairs 30 (gnInitState cosQ piQ init) ≤ 30 := by
  refine ⟨?_, ?_, ?_, ?_⟩
  · simp only [gnLoop]
    rw [if_pos hsing]
  · simp only [gnLoop]
    rw [if_neg hns, if_pos hsmall]
  · exact gnSteps_le_fuel sqrtQ cosQ piQ refLat pairs fuel3 s3
  · exact gnSteps_le_fuel sqrtQ cosQ piQ init.lat pairs 30 _

/-! ### Positive semidefiniteness of the accumulated normal matrix -/

/-- Symmetric PSD shape of a 2×2 matrix. -/
def SymPSD (m : Mat2) : Prop := m.b = m.c ∧ 0 ≤ m.a ∧ 0 ≤ m.d ∧ 0 ≤ det2 m

theorem quad_step_nonneg (A B D j1 j2 : ℚ) (hA : 0 ≤ A) (hD : 0 ≤ D)
    (hdet : 0 ≤ A * D - B * B) :
    0 ≤ A * (j2 * j2) - 2 * B * (j1 * j2) + D * (j1 * j1) := by
  rcases eq_or_lt_of_le hA with h | h
  · have hB : B = 0 := by nlinarith
    rw [← h, hB]
    nlinarith [mul_self_nonneg j1]
  · nlinarith [mul_self_nonneg (A * j2 - B * j1), mul_nonneg hdet (mul_self_nonneg j1)]

theorem normStep_sympsd (acc : Mat2 × (ℚ × ℚ)) (x : (ℚ × ℚ) × ℚ)
    (h : SymPSD acc.1) : SymPSD (normStep acc x).1 := by
  obtain ⟨hbc, ha, hd, hdet⟩ := h
  have hcb : acc.1.c = acc.1.b := hbc.symm
  refine ⟨?_, ?_, ?_, ?_⟩
  · simp only [normStep]
    rw [hbc]
    ring
  · simp only [normStep]
    nlinarith [mul_self_nonneg x.1.1]
  · simp only [normStep]
    nlinarith [mul_self_nonneg x.1.2]
  · simp only [normStep, det2] at hdet ⊢
    rw [hcb] at hdet ⊢
    have hq := quad_step_nonneg acc.1.a acc.1.b acc.1.d x.1.1 x.1.2 ha hd hdet
    nlinarith [hq, hdet]

theorem foldl_normStep_sympsd :
    ∀ (jr : List ((ℚ × ℚ) × ℚ)) (acc : Mat2 × (ℚ × ℚ)),
      SymPSD acc.1 → SymPSD (jr.foldl normStep acc).1 := by
  intro jr
  induction jr with
  | nil => intro acc h; simpa using h
  | cons x xs ih => intro acc h; exact ih _ (normStep_sympsd acc x h)

theorem accumNormal_sympsd (jr : List ((ℚ × ℚ) × ℚ)) : SymPSD (accumNormal jr).1 :=
  foldl_normStep_sympsd jr _ ⟨rfl, le_rfl, le_rfl, by simp [mat2Zero, det2]⟩

theorem gnLoop_sympsd (sqrtQ cosQ : ℚ → ℚ) (piQ refLat : ℚ) (pairs : List TdoaPair) :
    ∀ (fuel : ℕ) (s : GnState), SymPSD s.jtjF →
      SymPSD (gnLoop sqrtQ cosQ piQ refLat pairs fuel s).jtjF := by
  intro fuel
  induction fuel with
  | zero => intro s h; simpa [gnLoop] using h
  | succ n ih =>
    intro s h
    simp only [gnLoop]
    split_ifs with h1 h2
    · exact h
    · simpa using h
    · refine ih _ ?_
      have haux := accumNormal_sympsd (buildJr sqrtQ cosQ piQ refLat pairs s.x0 s.y0)
      simpa [gnNormal] using haux

theorem foldl_sq_nonneg :
    ∀ (l : List ℚ) (a : ℚ), 0 ≤ a → 0 ≤ l.foldl (fun x y => x + y * y) a := by
  intro l
  induction l with
  | nil => intro a h; simpa using h
  | cons x xs ih =>
    intro a h
    simp only [List.foldl_cons]
    exact ih _ (by nlinarith [mul_self_nonneg x])

theorem sigma2Code_nonneg (l : List ℚ) : 0 ≤ sigma2Code l := by
  unfold sigma2Code
  split_ifs with h
  · refine div_nonneg (foldl_sq_nonneg l 0 le_rfl) ?_
    have h1 : (1 : ℚ) ≤ max 1 ((l.length : ℚ) - 2) := le_max_left _ _
    linarith
  · exact le_rfl

theorem covOf_b_eq_c (s : GnState) (hbc : s.jtjF.b = s.jtjF.c) :
    (covOf s).b = (covOf s).c := by
  simp only [covOf]
  split_ifs with hg
  · dsimp only
    rw [hbc]
  · rfl

theorem covOf_diag_nonneg (s : GnState) (ha : 0 ≤ s.jtjF.a) (hd : 0 ≤ s.jtjF.d)
    (hdet : 0 ≤ det2 s.jtjF) : 0 ≤ (covOf s).a ∧ 0 ≤ (covOf s).d := by
  simp only [covOf]
  split_ifs with hg
  · exact ⟨mul_nonneg (sigma2Code_nonneg _) (div_nonneg hd hdet),
      mul_nonneg (sigma2Code_nonneg _) (div_nonneg ha hdet)⟩
  · exact ⟨le_rfl, le_rfl⟩

theorem hplOf_nonneg (sqrtQ : ℚ → ℚ) (cov : Mat2)
    (hsq : ∀ q : ℚ, 0 ≤ q → 0 ≤ sqrtQ q) : 0 ≤ hplOf sqrtQ cov := by
  unfold hplOf
  exact mul_nonneg (by norm_num) (hsq _ (le_max_left _ _))

/-- C10: for every list of TDOA pairs and every initial guess, the
solver returns a symmetric covariance (cov[0][1] = cov[1][0]) with
nonnegative diagonal entries, and a nonnegative hplMeters — provided the
abstracted square root maps nonnegative inputs to nonnegative outputs,
as Math.sqrt does. -/
theorem c10_solver_output_invariants (sqrtQ cosQ : ℚ → ℚ) (piQ : ℚ)
    (pairs : List TdoaPair) (init : GeoPt)
    (hsq : ∀ q : ℚ, 0 ≤ q → 0 ≤ sqrtQ q) :
    (solvePositionFromTDOA sqrtQ cosQ piQ pairs init).covariance.b
        = (solvePositionFromTDOA sqrtQ cosQ piQ pairs init).covariance.c
    ∧ 0 ≤ (solvePositionFromTDOA sqrtQ cosQ piQ pairs init).covariance.a
    ∧ 0 ≤ (solvePositionFromTDOA sqrtQ cosQ piQ pairs init).covariance.d
    ∧ 0 ≤ (solvePositionFromTDOA sqrtQ cosQ piQ pairs init).hplMeters := by
  have hcov : (solvePositionFromTDOA sqrtQ cosQ piQ pairs init).covariance
      = covOf (gnFinal sqrtQ cosQ piQ pairs init) := rfl
  have hhpl : (solvePositionFromTDOA sqrtQ cosQ piQ pairs init).hplMeters
      = hplOf sqrtQ (covOf (gnFinal sqrtQ cosQ piQ pairs init)) := rfl
  have hstate : SymPSD (gnFinal sqrtQ cosQ piQ pairs init).jtjF := by
    apply gnLoop_sympsd
    exact ⟨rfl, le_rfl, le_rfl, by simp [gnInitState, mat2Zero, det2]⟩
  obtain ⟨hbc, ha, hd, hdet⟩ := hstate
  have hdiag := covOf_diag_nonneg _ ha hd hdet
  refine ⟨?_, ?_, ?_, ?_⟩
  · rw [hcov]
    exact covOf_b_eq_c _ hbc
  · rw [hcov]
    exact hdiag.1
  · rw [hcov]
    exact hdiag.2
  · rw [hhpl]
    exact hplOf_nonneg sqrtQ _ hsq

/-- C10 witness: the invariants instantiated with the identity square
root, an empty observation list and the origin as initial guess. -/
theorem c10_witness :
    (solvePositionFromTDOA id id 0 [] ⟨0, 0⟩).covariance.b
        = (solvePositionFromTDOA id id 0 [] ⟨0, 0⟩).covariance.c
    ∧ 0 ≤ (solvePositionFromTDOA id id 0 [] ⟨0, 0⟩).covariance.a
    ∧ 0 ≤ (solvePositionFromTDOA id id 0 [] ⟨0, 0⟩).covariance.d
    ∧ 0 ≤ (solvePositionFromTDOA id id 0 [] ⟨0, 0⟩).hplMeters :=
  c10_solver_output_invariants id id 0 [] ⟨0, 0⟩ (fun _ h => h)

theorem gnLoop_succ_singular (sqrtQ cosQ : ℚ → ℚ) (piQ refLat : ℚ)
    (pairs : List TdoaPair) (n : ℕ) (s : GnState)
    (hdet : |det2 (gnNormal sqrtQ cosQ piQ refLat pairs s).1| < 1/1000000000000) :
    gnLoop sqrtQ cosQ piQ refLat pairs (n + 1) s = s := by
  simp only [gnLoop]
  rw [if_pos hdet]

theorem gnLoop_succ_continue (sqrtQ cosQ : ℚ → ℚ) (piQ refLat : ℚ)
    (pairs : List TdoaPair) (n : ℕ) (s : GnState)
    (hdet : ¬ |det2 (gnNormal sqrtQ cosQ piQ refLat pairs s).1| < 1/1000000000000)
    (hstep : ¬ hypotQ sqrtQ (gnDx sqrtQ cosQ piQ refLat pairs s)
        (gnDy sqrtQ cosQ piQ refLat pairs s) < 1/1000000) :
    gnLoop sqrtQ cosQ piQ refLat pairs (n + 1) s
      = gnLoop sqrtQ cosQ piQ refLat pairs n
          ⟨s.x0 + gnDx sqrtQ cosQ piQ refLat pairs s,
           s.y0 + gnDy sqrtQ cosQ piQ refLat pairs s,
           (gnNormal sqrtQ cosQ piQ refLat pairs s).1,
           gnResiduals sqrtQ cosQ piQ refLat pairs s⟩ := by
  simp only [gnLoop]
  rw [if_neg hdet, if_neg hstep]

/-! ### Concrete scenarios exercising the solver loop.  The tables below
instantiate the abstract square root at the arguments the loop actually
visits, which steers one run through a full first iteration and a
singular second one, and another run into each early exit. -/

def c3wSqrt : ℚ → ℚ := fun q =>
  if q = 1 then 1/1000000000
  else if q = 4 then 1
  else if q = 5 then 1000000000000
  else if q = 9 then 3
  else 0

def c3wCos : ℚ → ℚ := fun _ => 1

def c3wPi : ℚ := 180/6371000

def c3wPairs : List TdoaPair :=
  [⟨⟨0, -1⟩, ⟨0, 1⟩, 0⟩, ⟨⟨-1, 0⟩, ⟨1, 0⟩, -4000000000/299792458⟩]

def c3wInit : GeoPt := ⟨0, 0⟩

def c3wJtj : Mat2 :=
  ⟨1000000000000000000/22468879468420441, 0, 0, 1000000000000000000/22468879468420441⟩

theorem c3w_final : gnFinal c3wSqrt c3wCos c3wPi c3wPairs c3wInit
    = ⟨0, 2, c3wJtj, [0, -2000000000/149896229]⟩ := by
  have hs0 : gnInitState c3wCos c3wPi c3wInit = ⟨0, 0, mat2Zero, []⟩ := by
    norm_num [gnInitState, latLngToXY, c3wPi, c3wCos, c3wInit, mat2Zero]
  have hd0 : ¬ |det2 (gnNormal c3wSqrt c3wCos c3wPi 0 c3wPairs ⟨0, 0, mat2Zero, []⟩).1|
      < 1/1000000000000 := by
    norm_num [gnNormal, accumNormal, normStep, buildJr, latLngToXY, hypotQ, c3wSqrt,
      c3wCos, c3wPi, c3wPairs, det2, mat2Zero, Cc, abs_eq_max_neg, max_def]
  have hstep0 : ¬ hypotQ c3wSqrt (gnDx c3wSqrt c3wCos c3wPi 0 c3wPairs ⟨0, 0, mat2Zero, []⟩)
      (gnDy c3wSqrt c3wCos c3wPi 0 c3wPairs ⟨0, 0, mat2Zero, []⟩) < 1/1000000 := by
    norm_num [gnDx, gnDy, gnNormal, accumNormal, normStep, buildJr, latLngToXY, hypotQ,
      c3wSqrt, c3wCos, c3wPi, c3wPairs, det2, mat2Zero, Cc]
  have hdx0 : gnDx c3wSqrt c3wCos c3wPi 0 c3wPairs ⟨0, 0, mat2Zero, []⟩ = 0 := by
    norm_num [gnDx, gnNormal, accumNormal, normStep, buildJr, latLngToXY, hypotQ,
      c3wSqrt, c3wCos, c3wPi, c3wPairs, det2, mat2Zero, Cc]
  have hdy0 : gnDy c3wSqrt c3wCos c3wPi 0 c3wPairs ⟨0, 0, mat2Zero, []⟩ = 2 := by
    norm_num [gnDy, gnNormal, accumNormal, normStep, buildJr, latLngToXY, hypotQ,
      c3wSqrt, c3wCos, c3wPi, c3wPairs, det2, mat2Zero, Cc]
  have hN0 : (gnNormal c3wSqrt c3wCos c3wPi 0 c3wPairs ⟨0, 0, mat2Zero, []⟩).1 = c3wJtj := by
    norm_num [gnNormal, accumNormal, normStep, buildJr, latLngToXY, hypotQ, c3wSqrt,
      c3wCos, c3wPi, c3wPairs, mat2Zero, Cc, c3wJtj, Mat2.mk.injEq]
  have hres0 : gnResiduals c3wSqrt c3wCos c3wPi 0 c3wPairs ⟨0, 0, mat2Zero, []⟩
      = [0, -2000000000/149896229] := by
    norm_num [gnResiduals, buildJr, latLngToXY, hypotQ, c3wSqrt, c3wCos, c3wPi,
      c3wPairs, Cc]
  have hd1 : |det2 (gnNormal c3wSqrt c3wCos c3wPi 0 c3wPairs
      ⟨0, 2, c3wJtj, [0, -2000000000/149896229]⟩).1| < 1/1000000000000 := by
    norm_num [gnNormal, accumNormal, normStep, buildJr, latLngToXY, hypotQ, c3wSqrt,
      c3wCos, c3wPi, c3wPairs, det2, mat2Zero, Cc, abs_eq_max_neg, max_def]
  have e1 : gnFinal c3wSqrt c3wCos c3wPi c3wPairs c3wInit
      = gnLoop c3wSqrt c3wCos c3wPi 0 c3wPairs 30 ⟨0, 0, mat2Zero, []⟩ := by
    rw [gnFinal, hs0]
    norm_num [c3wInit]
  rw [e1, show (30 : ℕ) = 29 + 1 from rfl,
    gnLoop_succ_continue c3wSqrt c3wCos c3wPi 0 c3wPairs 29 ⟨0, 0, mat2Zero, []⟩ hd0 hstep0]
  norm_num [hdx0, hdy0, hN0, hres0]
  rw [show (29 : ℕ) = 28 + 1 from rfl]
  exact gnLoop_succ_singular c3wSqrt c3wCos c3wPi 0 c3wPairs 28 _ hd1

/-- C3 witness: a run whose first iteration completes in full (retaining
a nonsingular JTJ_final) and whose second iteration hits the singular
exit, so every hypothesis of the covariance/HPL theorem holds at this
input. -/
theorem c3_witness :
    (1/1000000000000
        < |det2 (gnFinal c3wSqrt c3wCos c3wPi c3wPairs c3wInit).jtjF|)
    ∧ 0 ≤ c3wSqrt (mat2Discr
        (solvePositionFromTDOA c3wSqrt c3wCos c3wPi c3wPairs c3wInit).covariance)
    ∧ c3wSqrt (mat2Discr
          (solvePositionFromTDOA c3wSqrt c3wCos c3wPi c3wPairs c3wInit).covariance)
        * c3wSqrt (mat2Discr
          (solvePositionFromTDOA c3wSqrt c3wCos c3wPi c3wPairs c3wInit).covariance)
        = mat2Discr (solvePositionFromTDOA c3wSqrt c3wCos c3wPi c3wPairs c3wInit).covariance
    ∧ ((solvePositionFromTDOA c3wSqrt c3wCos c3wPi c3wPairs c3wInit).covariance
          = smul2 (sigma2Spec (gnFinal c3wSqrt c3wCos c3wPi c3wPairs c3wInit).rF)
              (inv2 (gnFinal c3wSqrt c3wCos c3wPi c3wPairs c3wInit).jtjF)
        ∧ mat2Mul (solvePositionFromTDOA c3wSqrt c3wCos c3wPi c3wPairs c3wInit).covariance
            (gnFinal c3wSqrt c3wCos c3wPi c3wPairs c3wInit).jtjF
          = smul2 (sigma2Spec (gnFinal c3wSqrt c3wCos c3wPi c3wPairs c3wInit).rF) mat2Id
        ∧ (solvePositionFromTDOA c3wSqrt c3wCos c3wPi c3wPairs c3wInit).hplMeters
          = hplSpec c3wSqrt
              (solvePositionFromTDOA c3wSqrt c3wCos c3wPi c3wPairs c3wInit).covariance
        ∧ (mat2Trace (solvePositionFromTDOA c3wSqrt c3wCos c3wPi c3wPairs c3wInit).covariance / 2
              + c3wSqrt (mat2Discr
                (solvePositionFromTDOA c3wSqrt c3wCos c3wPi c3wPairs c3wInit).covariance))
            * (mat2Trace (solvePositionFromTDOA c3wSqrt c3wCos c3wPi c3wPairs c3wInit).covariance / 2
              + c3wSqrt (mat2Discr
                (solvePositionFromTDOA c3wSqrt c3wCos c3wPi c3wPairs c3wInit).covariance))
            - mat2Trace (solvePositionFromTDOA c3wSqrt c3wCos c3wPi c3wPairs c3wInit).covariance
              * (mat2Trace (solvePositionFromTDOA c3wSqrt c3wCos c3wPi c3wPairs c3wInit).covariance / 2
                + c3wSqrt (mat2Discr
                  (solvePositionFromTDOA c3wSqrt c3wCos c3wPi c3wPairs c3wInit).covariance))
            + det2 (solvePositionFromTDOA c3wSqrt c3wCos c3wPi c3wPairs c3wInit).covariance = 0
        ∧ mat2Trace (solvePositionFromTDOA c3wSqrt c3wCos c3wPi c3wPairs c3wInit).covariance / 2
              - c3wSqrt (mat2Discr
                (solvePositionFromTDOA c3wSqrt c3wCos c3wPi c3wPairs c3wInit).covariance)
            ≤ mat2Trace (solvePositionFromTDOA c3wSqrt c3wCos c3wPi c3wPairs c3wInit).covariance / 2
              + c3wSqrt (mat2Discr
                (solvePositionFromTDOA c3wSqrt c3wCos c3wPi c3wPairs c3wInit).covariance)) := by
  have hguard : 1/1000000000000
      < |det2 (gnFinal c3wSqrt c3wCos c3wPi c3wPairs c3wInit).jtjF| := by
    rw [c3w_final]
    norm_num [c3wJtj, det2, abs_eq_max_neg, max_def]
  have hcovz : (solvePositionFromTDOA c3wSqrt c3wCos c3wPi c3wPairs c3wInit).covariance
      = mat2Zero := by
    have hc : (solvePositionFromTDOA c3wSqrt c3wCos c3wPi c3wPairs c3wInit).covariance
        = covOf (gnFinal c3wSqrt c3wCos c3wPi c3wPairs c3wInit) := rfl
    rw [hc, c3w_final]
    norm_num [covOf, sigma2Code, c3wJtj, det2, mat2Zero, abs_eq_max_neg, max_def,
      Mat2.mk.injEq]
  have hdz : mat2Discr
      (solvePositionFromTDOA c3wSqrt c3wCos c3wPi c3wPairs c3wInit).covariance = 0 := by
    rw [hcovz]
    norm_num [mat2Discr, mat2Trace, det2, mat2Zero]
  have hsz : c3wSqrt (mat2Discr
      (solvePositionFromTDOA c3wSqrt c3wCos c3wPi c3wPairs c3wInit).covariance) = 0 := by
    rw [hdz]
    norm_num [c3wSqrt]
  have hs0 : 0 ≤ c3wSqrt (mat2Discr
      (solvePositionFromTDOA c3wSqrt c3wCos c3wPi c3wPairs c3wInit).covariance) := by
    rw [hsz]
  have hs1 : c3wSqrt (mat2Discr
        (solvePositionFromTDOA c3wSqrt c3wCos c3wPi c3wPairs c3wInit).covariance)
      * c3wSqrt (mat2Discr
        (solvePositionFromTDOA c3wSqrt c3wCos c3wPi c3wPairs c3wInit).covariance)
      = mat2Discr
          (solvePositionFromTDOA c3wSqrt c3wCos c3wPi c3wPairs c3wInit).covariance := by
    rw [hsz, hdz]
    norm_num
  exact ⟨hguard, hs0, hs1,
    c3_solver_covariance_and_hpl c3wSqrt c3wCos c3wPi c3wPairs c3wInit hguard hs0 hs1⟩

def c7wSqrt : ℚ → ℚ := fun q => if q = 1 then 1/1000000000 else 0

def c7wCos : ℚ → ℚ := fun _ => 1

def c7wPi : ℚ := 180/6371000

def c7wPairs : List TdoaPair := [⟨⟨0, -1⟩, ⟨0, 1⟩, 0⟩, ⟨⟨-1, 0⟩, ⟨1, 0⟩, 0⟩]

/-- C7 witness: a state where the normal matrix is numerically singular
(the loop returns it unchanged), a state where the determinant is
regular but the step norm is below threshold (the loop stops after one
update), and the iteration bound at the solver's initial state. -/
theorem c7_witness :
    (|det2 (gnNormal c7wSqrt c7wCos c7wPi 0 c7wPairs ⟨0, 2, mat2Zero, []⟩).1|
        < 1/1000000000000)
    ∧ (¬ |det2 (gnNormal c7wSqrt c7wCos c7wPi 0 c7wPairs ⟨0, 0, mat2Zero, []⟩).1|
        < 1/1000000000000)
    ∧ (hypotQ c7wSqrt (gnDx c7wSqrt c7wCos c7wPi 0 c7wPairs ⟨0, 0, mat2Zero, []⟩)
        (gnDy c7wSqrt c7wCos c7wPi 0 c7wPairs ⟨0, 0, mat2Zero, []⟩) < 1/1000000)
    ∧ (gnLoop c7wSqrt c7wCos c7wPi 0 c7wPairs 8 ⟨0, 2, mat2Zero, []⟩
          = ⟨0, 2, mat2Zero, []⟩
        ∧ gnLoop c7wSqrt c7wCos c7wPi 0 c7wPairs 5 ⟨0, 0, mat2Zero, []⟩
          = ⟨0 + gnDx c7wSqrt c7wCos c7wPi 0 c7wPairs ⟨0, 0, mat2Zero, []⟩,
             0 + gnDy c7wSqrt c7wCos c7wPi 0 c7wPairs ⟨0, 0, mat2Zero, []⟩,
             mat2Zero, []⟩
        ∧ gnSteps c7wSqrt c7wCos c7wPi 0 c7wPairs 9 ⟨1, 1, mat2Zero, []⟩ ≤ 9
        ∧ gnSteps c7wSqrt c7wCos c7wPi 0 c7wPairs 30
            (gnInitState c7wCos c7wPi ⟨0, 0⟩) ≤ 30) := by
  have h1 : |det2 (gnNormal c7wSqrt c7wCos c7wPi 0 c7wPairs ⟨0, 2, mat2Zero, []⟩).1|
      < 1/1000000000000 := by
    norm_num [gnNormal, accumNormal, normStep, buildJr, latLngToXY, hypotQ, c7wSqrt,
      c7wCos, c7wPi, c7wPairs, det2, mat2Zero, Cc, abs_eq_max_neg, max_def]
  have h2 : ¬ |det2 (gnNormal c7wSqrt c7wCos c7wPi 0 c7wPairs ⟨0, 0, mat2Zero, []⟩).1|
      < 1/1000000000000 := by
    norm_num [gnNormal, accumNormal, normStep, buildJr, latLngToXY, hypotQ, c7wSqrt,
      c7wCos, c7wPi, c7wPairs, det2, mat2Zero, Cc, abs_eq_max_neg, max_def]
  have h3 : hypotQ c7wSqrt (gnDx c7wSqrt c7wCos c7wPi 0 c7wPairs ⟨0, 0, mat2Zero, []⟩)
      (gnDy c7wSqrt c7wCos c7wPi 0 c7wPairs ⟨0, 0, mat2Zero, []⟩) < 1/1000000 := by
    norm_num [gnDx, gnDy, gnNormal, accumNormal, normStep, buildJr, latLngToXY, hypotQ,
      c7wSqrt, c7wCos, c7wPi, c7wPairs, det2, mat2Zero, Cc]
  exact ⟨h1, h2, h3,
    c7_solver_termination c7wSqrt c7wCos c7wPi 0 c7wPairs 7 4 9
      ⟨0, 2, mat2Zero, []⟩ ⟨0, 0, mat2Zero, []⟩ ⟨1, 1, mat2Zero, []⟩ ⟨0, 0⟩ h1 h2 h3⟩

end Actife
